import Mathlib

/-!
Verification of `dendropy/model/birthdeath.py` (DendroPy birth-death models).

This file gives a shallow embedding, in Lean 4, of the birth-death process
simulators and the pure-birth (Yule) maximum-likelihood fitter of
`src/dendropy/model/birthdeath.py`, and proves/refutes the frozen claims
about them.

Modelling conventions:
- Python floats are modelled as exact rationals (`ℚ`); the one genuinely
  real-valued quantity (the log-likelihood, which uses `math.log`) is
  modelled over `ℝ` with `Real.log`.
- Randomness is an oracle: a `RngState` is a record of streams, one stream
  per `random.Random` method used by the code (`expovariate`, `random` /
  `uniform`, `gauss`).  Each draw consumes the next value of the matching
  stream; the value of an `expovariate` draw is the oracle value itself
  (the rate argument only shapes the distribution, not the functional
  behaviour).  A `gauss(0, sd)` draw is modelled as `sd * z` where `z` is
  the next value of the gauss stream, so `sd = 0` gives exactly `0`.
- Exceptions are modelled with `Option`/`Except`/extra constructors.
- The continuous simulator is embedded on its fresh-tree path
  (`tree=None`); the caller-supplied-tree initialization is embedded
  separately (it crashes on any leaf whose extinct flag is false, since
  the code calls `.append` on a `set`, see `bd_init_pre_existing_leaves`).
- Python iterates the `extant_tips` set in unspecified order; the
  embedding fixes left-to-right tree order, which realizes one admissible
  order of each run.
-/

deriving instance DecidableEq for Except

/-- Oracle model of a `random.Random` instance: one stream per method the
simulators call.  `expv i` is the value of the `i`-th `expovariate` draw,
`unif i` of the `i`-th `random()`/`uniform(0,1)` draw, and `gauss i` of the
`i`-th standard-normal draw (a `gauss(0, sd)` call yields `sd * gauss i`). -/
structure RngState where
  expv : ℕ → ℚ
  unif : ℕ → ℚ
  gauss : ℕ → ℚ

/-- Model of `rng = kwargs.pop('rng', GLOBAL_RNG)` (line 157, and likewise
line 450 and lines 520-521): the caller-supplied RNG if present, else the
ambient global RNG. -/
def resolve_rng (user : Option RngState) (global_rng : RngState) : RngState :=
  user.getD global_rng

/-- Insert into a descending-sorted list (helper for `sortDesc`). -/
def insertDesc (a : ℚ) : List ℚ → List ℚ
  | [] => [a]
  | b :: t => if b ≤ a then a :: b :: t else b :: insertDesc a t

/-- Model of Python's `sorted(xs, reverse=True)`: sort descending. -/
def sortDesc (l : List ℚ) : List ℚ :=
  l.foldr insertDesc []

/-- Largest index `k + i` whose element satisfies `p`; `none` if no element
does.  This is Python's `max(nvec[idx] for idx, i in enumerate(x) if p(i))`
(minus the `+2` offset of `nvec`): since indices ascend, the max over the
satisfying indices is the last satisfying index. -/
def maxIdxSat (p : ℚ → Bool) : List ℚ → ℕ → Option ℕ
  | [], _ => none
  | a :: rest, k =>
    match maxIdxSat p rest (k + 1) with
    | some m => some m
    | none => if p a then some k else none

/-- Intermediate result of `fit_pure_birth_model` (lines 659-674): the
birth-rate MLE `smax` together with the `lo`/`up` bounds used by the
log-likelihood computation. -/
structure PBFit where
  smax : ℚ
  lo : ℕ
  up : ℕ
deriving DecidableEq

/-- Embedding of the core of `fit_pure_birth_model` (lines 659-674).
`none` models an uncaught Python exception: `IndexError` on `x[0]` for an
empty age list, `ValueError` from `max()` over an empty generator for
`up`/`lo`, or `ZeroDivisionError` when `t2 + t3 == 0`.
`nvec = range(2, len(x)+2)` means `nvec[idx] = idx + 2`; the slice
`nv[1:(up-lo+1)]` is `take (up - lo)` of `nv.drop 1` (whenever `up` is
defined all ages are not all negative, so `st1 ≥ 0` and `lo ≤ up`, and the
truncated subtraction agrees with Python). -/
def fit_pure_birth_core (internal_node_ages : List ℚ) : Option PBFit :=
  match sortDesc internal_node_ages with
  | [] => none
  | st1 :: xrest =>
    let x := st1 :: xrest
    let st2 : ℚ := 0
    let nv0 := x.filter (fun i => decide (i < st1) && decide (st2 ≤ i))
    match maxIdxSat (fun i => decide (st1 ≤ i)) x 0,
          maxIdxSat (fun i => decide (st2 ≤ i)) x 0 with
    | some loIdx, some upIdx =>
      let lo := loIdx + 2
      let up := upIdx + 2
      let nv := if st1 ≤ st1 then (st1 :: nv0).map (fun i => i - st2)
                else nv0.map (fun i => i - st2)
      let t1 : ℚ := (up : ℚ) - (lo : ℚ)
      let t2 : ℚ := (lo : ℚ) * nv.headI
      let t3 : ℚ := ((nv.drop 1).take (up - lo)).sum
      if t2 + t3 = 0 then none
      else some ⟨t1 / (t2 + t3), lo, up⟩
    | _, _ => none

/-- Model of the Python float value bound to `"log_likelihood"`: either the
`float("-inf")` sentinel of the failure branch (line 685) or a real value. -/
inductive LogLikValue where
  | neg_inf : LogLikValue
  | val : ℝ → LogLikValue

/-- Whether the `try` block of lines 676-680 raises `ValueError`:
`math.log(smax)` fails exactly when `smax ≤ 0` (the `s1` sum only takes
logs of integers `≥ lo ≥ 2`, which never fail). -/
def log_likelihood_fails (f : PBFit) : Bool :=
  decide (f.smax ≤ 0)

/-- The value computed by lines 677-680 when no exception occurs:
`s1 = sum(log i for i in range(lo, up))`, `s2 = (up-lo)*log(smax)`,
`s3 = lo - up`, `lh = s1 + s2 + s3`. -/
noncomputable def fit_log_likelihood_value (lo up : ℕ) (smax : ℚ) : ℝ :=
  (((List.range' lo (up - lo)).map (fun i => Real.log (i : ℝ))).sum)
    + ((up : ℝ) - (lo : ℝ)) * Real.log (smax : ℚ)
    + ((lo : ℝ) - (up : ℝ))

/-- Outcome of `fit_pure_birth_model`: the returned dictionary
(`birth_rate`, `log_likelihood`) or the re-raised
`ValueError("Likelihood estimation failure")` of line 683. -/
inductive FitOutcome where
  | ok (birth_rate : ℚ) (log_likelihood : LogLikValue)
  | raised

/-- Embedding of `fit_pure_birth_model` given precomputed internal node
ages (lines 651-691).  The outer `none` models the uncaught exceptions of
`fit_pure_birth_core`.  Per lines 681-685: on a log failure, the flag
`ignore_likelihood_calculation_failure=True` RAISES
`ValueError("Likelihood estimation failure")`, while the default `False`
degrades the log-likelihood to `float("-inf")`. -/
noncomputable def fit_pure_birth_model
    (internal_node_ages : List ℚ)
    (ignore_likelihood_calculation_failure : Bool) : Option FitOutcome :=
  match fit_pure_birth_core internal_node_ages with
  | none => none
  | some f =>
    if log_likelihood_fails f then
      if ignore_likelihood_calculation_failure then some .raised
      else some (.ok f.smax .neg_inf)
    else some (.ok f.smax (.val (fit_log_likelihood_value f.lo f.up f.smax)))

/-- Scan loop of the GSA slice selection (lines 331-336): `r` starts at
`u * total`, each iteration does `r -= duration` and, when `r < 0`,
OVERWRITES `selected_slice` with the current slice (there is no `break`
in the source). -/
def select_time_slice_go : ℚ → List ℚ → ℕ → Option ℕ → Option ℕ
  | _, [], _, sel => sel
  | r, d :: rest, i, sel =>
    select_time_slice_go (r - d) rest (i + 1) (if r - d < 0 then some i else sel)

/-- Embedding of the GSA slice selection of lines 327-337, as the index of
the slice the loop leaves in `selected_slice`.  `u` models `rng.random()`;
the durations are the recorded dwell durations `i[0]`. -/
def select_time_slice (u : ℚ) (durations : List ℚ) : Option ℕ :=
  select_time_slice_go (u * durations.sum) durations 0 none

/-- The selection the spec describes: the FIRST slice whose cumulative
dwell duration exceeds `u` times the total dwell duration (written from
the spec's words, for comparison with `select_time_slice`). -/
def first_crossing_slice_go : ℚ → List ℚ → ℕ → Option ℕ
  | _, [], _ => none
  | r, d :: rest, i => if r - d < 0 then some i else first_crossing_slice_go (r - d) rest (i + 1)

/-- Spec-side slice selection: first index where the cumulative duration
crosses `u * total`. -/
def first_crossing_slice (u : ℚ) (durations : List ℚ) : Option ℕ :=
  first_crossing_slice_go (u * durations.sum) durations 0

/-- Outcome of the caller-supplied-tree initialization loop
(lines 191-204).  `attr_err extant` models the `AttributeError` raised by
`extinct_tips.append(nd)` (line 200): `extinct_tips` is a `set`, which has
no `append`; `extant` is the extant set built before the crash. -/
inductive InitTipsOutcome where
  | ok (extant : List ℕ) (extinct : List ℕ)
  | attr_err (extant : List ℕ)
deriving DecidableEq

/-- Embedding of lines 191-204: each node of the caller-supplied tree is
given as `(is_leaf, flag)` where `flag` is `getattr(nd, extinct_attr_name,
False)`.  A leaf with a TRUE extinct flag is added to `extant_tips`; for
any other leaf the code executes `extinct_tips.append(nd)` on a `set` and
crashes with `AttributeError`.  Nodes are numbered by position. -/
def bd_init_pre_existing_leaves : List (Bool × Bool) → ℕ → List ℕ → InitTipsOutcome
  | [], _, extant => .ok extant []
  | (is_leaf, flag) :: rest, i, extant =>
    if is_leaf then
      if flag then bd_init_pre_existing_leaves rest (i + 1) (extant ++ [i])
      else .attr_err extant
    else bd_init_pre_existing_leaves rest (i + 1) extant

/-- The partition the spec describes (written from the spec's words, for
comparison): every leaf whose extinction flag is true goes to the extinct
set, every other leaf to the extant set. -/
def spec_partition_leaves : List (Bool × Bool) → ℕ → (List ℕ × List ℕ)
  | [], _ => ([], [])
  | (is_leaf, flag) :: rest, i =>
    let (extant, extinct) := spec_partition_leaves rest (i + 1)
    if is_leaf then
      if flag then (extant, i :: extinct) else (i :: extant, extinct)
    else (extant, extinct)

/-- Configuration of `birth_death_tree` after keyword processing
(lines 142-157): `none` models an argument that was not given. -/
structure BDConfig where
  birth_rate : ℚ
  death_rate : ℚ
  birth_rate_sd : ℚ
  death_rate_sd : ℚ
  num_extant_tips : Option ℕ
  num_extinct_tips : Option ℕ
  num_total_tips : Option ℕ
  max_time : Option ℚ
  gsa_ntax : Option ℕ
  is_retain_extinct_tips : Bool
  repeat_until_success : Bool
deriving DecidableEq

/-- Whether `birth_death_tree` raises `ValueError` during configuration
validation, per lines 136-141 and 173-183: no termination condition at
all; or `gsa_ntax` given without `num_extant_tips`; or `gsa_ntax` given
with `num_extinct_tips` or `num_total_tips`; or `gsa_ntax` below
`num_extant_tips`. -/
def bd_invalid_configuration (cfg : BDConfig) : Bool :=
  if cfg.num_extant_tips.isNone && cfg.num_extinct_tips.isNone
      && cfg.num_total_tips.isNone && cfg.max_time.isNone then true
  else
    match cfg.gsa_ntax with
    | none => false
    | some g =>
      match cfg.num_extant_tips with
      | none => true
      | some n =>
        cfg.num_extinct_tips.isSome || cfg.num_total_tips.isSome || decide (g < n)

/-- Lines 171-175: `terminate_at_full_tree` is initialized `False` and set
`True` exactly when `gsa_ntax is None`. -/
def terminate_at_full_tree (gsa_ntax : Option ℕ) : Bool :=
  match gsa_ntax with
  | none => true
  | some _ => false

/-- Default of the `repeat_until_success` keyword in `birth_death_tree`
(line 152). -/
def bd_resolve_repeat_until_success (kw : Option Bool) : Bool :=
  kw.getD true

/-- Default of the `repeat_until_success` keyword in
`discrete_birth_death_tree` (line 449). -/
def dbd_resolve_repeat_until_success (kw : Option Bool) : Bool :=
  kw.getD false

/-- Lineage tree, fresh-tree path of `birth_death_tree`: every node was
created either as the seed (lines 208-216) or by `new_child()` at a birth
event (lines 294-303), so every internal node has exactly two children and
every tip carries its `birth_rate`/`death_rate` attributes from creation
(the lazy-init of lines 249-252 never fires on this path).  A tip's
`alive` field records membership of the `extant_tips` set (`false` means
the tip was moved to `extinct_tips`, or died at total extinction). -/
inductive LTree where
  | tip (len : ℚ) (birth_rate : ℚ) (death_rate : ℚ) (alive : Bool)
  | node (len : ℚ) (left : LTree) (right : LTree)
deriving DecidableEq

/-- Number of extant tips (`len(extant_tips)`). -/
def aliveCount : LTree → ℕ
  | .tip _ _ _ alive => if alive then 1 else 0
  | .node _ l r => aliveCount l + aliveCount r

/-- Number of extinct tips (`len(extinct_tips)`). -/
def deadCount : LTree → ℕ
  | .tip _ _ _ alive => if alive then 0 else 1
  | .node _ l r => deadCount l + deadCount r

/-- Total number of leaves of the tree. -/
def leafCount : LTree → ℕ
  | .tip _ _ _ _ => 1
  | .node _ l r => leafCount l + leafCount r

/-- Edge length of the root node (`tree.seed_node.edge.length`). -/
def rootLen : LTree → ℚ
  | .tip len _ _ _ => len
  | .node len _ _ => len

/-- Whether the tree is a bare root (a childless seed node). -/
def isTip : LTree → Bool
  | .tip _ _ _ _ => true
  | .node _ _ _ => false

/-- Rates of the extant tips, in left-to-right order: the traversal order
the embedding fixes for `for nd in extant_tips` (lines 248-256). -/
def tipRates : LTree → List (ℚ × ℚ)
  | .tip _ br dr alive => if alive then [(br, dr)] else []
  | .node _ l r => tipRates l ++ tipRates r

/-- Lines 253-256: the flattened event weight list — for each extant tip,
one birth entry (its birth rate) followed by one death entry (its death
rate), so event index `2*j` is the birth and `2*j + 1` the death of the
`j`-th extant tip. -/
def eventWeights : List (ℚ × ℚ) → List ℚ
  | [] => []
  | (br, dr) :: rest => br :: dr :: eventWeights rest

/-- Lines 276-280: add the waiting time to every extant tip's edge. -/
def growTips (wt : ℚ) : LTree → LTree
  | .tip len br dr alive => if alive then .tip (len + wt) br dr alive else .tip len br dr alive
  | .node len l r => .node len (growTips wt l) (growTips wt r)

/-- Helper for `birthAt`: thread the index of the targeted extant tip
left-to-right; `none` means the birth has already been applied.
At the target (lines 291-303): the parent tip becomes an internal node and
two children are created with zero edge length and rates
`parent_rate + sd * gauss_draw` (the four gauss draws in source order:
c1 birth, c1 death, c2 birth, c2 death). -/
def birthAtAux (bsd dsd g1 g2 g3 g4 : ℚ) : Option ℕ → LTree → LTree × Option ℕ
  | none, t => (t, none)
  | some j, .tip len br dr alive =>
    if alive then
      if j = 0 then
        (.node len (.tip 0 (br + bsd * g1) (dr + dsd * g2) true)
                   (.tip 0 (br + bsd * g3) (dr + dsd * g4) true), none)
      else (.tip len br dr alive, some (j - 1))
    else (.tip len br dr alive, some j)
  | some j, .node len l r =>
    let (l', s) := birthAtAux bsd dsd g1 g2 g3 g4 (some j) l
    let (r', s') := birthAtAux bsd dsd g1 g2 g3 g4 s r
    (.node len l' r', s')

/-- Birth event at the `j`-th extant tip (counted left to right). -/
def birthAt (bsd dsd g1 g2 g3 g4 : ℚ) (j : ℕ) (t : LTree) : LTree :=
  (birthAtAux bsd dsd g1 g2 g3 g4 (some j) t).1

/-- Helper for `killAt`: same index threading as `birthAtAux`; the target
tip is removed from the extant set (lines 290, 304-308). -/
def killAtAux : Option ℕ → LTree → LTree × Option ℕ
  | none, t => (t, none)
  | some j, .tip len br dr alive =>
    if alive then
      if j = 0 then (.tip len br dr false, none)
      else (.tip len br dr alive, some (j - 1))
    else (.tip len br dr alive, some j)
  | some j, .node len l r =>
    let (l', s) := killAtAux (some j) l
    let (r', s') := killAtAux s r
    (.node len l' r', s')

/-- Death event at the `j`-th extant tip (counted left to right). -/
def killAt (j : ℕ) (t : LTree) : LTree :=
  (killAtAux (some j) t).1

/-- Modelled from the spec: `dendropy.calculate.probability.weighted_choice`
is not under `src/`; spec §4.1 specifies cumulative-weight selection
against one uniform draw scaled to the weight total.  Scan loop: running
cumulative weight, first index whose cumulative weight exceeds the
target. -/
def weighted_choice_go : ℚ → List ℚ → ℚ → ℕ → Option ℕ
  | _, [], _, _ => none
  | target, w :: rest, cum, idx =>
    if target < cum + w then some idx else weighted_choice_go target rest (cum + w) (idx + 1)

/-- Modelled from the spec (§4.1): select index `i` with probability
`ws[i] / Σws`, by one uniform draw `u` scaled to `Σws`. -/
def weighted_choice_idx (u : ℚ) (ws : List ℚ) : Option ℕ :=
  weighted_choice_go (u * ws.sum) ws 0 0

/-- State of the continuous-time simulation loop (lines 220-325): the
tree (which carries the extant/extinct sets via the tips' `alive` flags),
`total_time`, the recorded GSA time slices (duration, tree snapshot), and
the consumed-counts of the three oracle streams. -/
structure BDState where
  tree : LTree
  total_time : ℚ
  targetted_time_slices : List (ℚ × LTree)
  ec : ℕ
  uc : ℕ
  gc : ℕ
deriving DecidableEq

/-- Result of one iteration of the `while True` loop. -/
inductive BDStepResult where
  | done (st : BDState)
  | stepped (st : BDState)
  | breakFullTree (st : BDState)
  | breakGsaTotalExtinction (st : BDState)
  | raisedTotalExtinction
  | selectionFailure
deriving DecidableEq

/-- Loop-top termination checks (lines 232-242). -/
def bd_termination_check (cfg : BDConfig) (st : BDState) : Bool :=
  match cfg.gsa_ntax with
  | none =>
    (match cfg.num_extant_tips with
     | some n => decide (n ≤ aliveCount st.tree)
     | none => false) ||
    (match cfg.num_extinct_tips with
     | some n => decide (n ≤ deadCount st.tree)
     | none => false) ||
    (match cfg.num_total_tips with
     | some n => decide (n ≤ aliveCount st.tree + deadCount st.tree)
     | none => false) ||
    (match cfg.max_time with
     | some m => decide (m ≤ st.total_time)
     | none => false)
  | some g => decide (g ≤ aliveCount st.tree)

/-- Lines 316-325: the extinction-retry reset.  `extant_tips` and
`extinct_tips` are restored from the initial snapshot (on the fresh-tree
path: the seed alone, and the empty set), the seed's children are cleared
and its extinct flag reset, and `total_time` is zeroed.  The snapshot of
line 217 is `set(extant_tips)` — a shallow copy — so the seed node keeps
its CURRENT edge length; its rates are the base rates set at lines
211-212.  The recorded time slices and the RNG are not reset. -/
def bd_reset_state (cfg : BDConfig) (st : BDState) : BDState :=
  { st with tree := .tip (rootLen st.tree) cfg.birth_rate cfg.death_rate true,
            total_time := 0 }

/-- Lines 309-325: handling of total extinction (the last extant lineage
died).  In GSA mode with at least one recorded slice, break out of the
loop; otherwise raise `TreeSimTotalExtinctionException` if retry is
disabled, else reset and continue. -/
def bd_total_extinction_outcome (cfg : BDConfig) (st : BDState) : BDStepResult :=
  if cfg.gsa_ntax.isSome && !st.targetted_time_slices.isEmpty then
    .breakGsaTotalExtinction st
  else if !cfg.repeat_until_success then .raisedTotalExtinction
  else .stepped (bd_reset_state cfg st)

/-- Lines 276-325: advance every extant edge and the clock by the waiting
time, then (if within the max-time bound) normalize the event weights,
select one `(lineage, is_birth)` event and realize it.  The event list is
built from the pre-advance tree (lines 246-256), whose extant structure
and rates `growTips` preserves. -/
def bd_event_phase (cfg : BDConfig) (rng : RngState) (st : BDState) (wt : ℚ) : BDStepResult :=
  let tree1 := growTips wt st.tree
  let time1 := st.total_time + wt
  let stBase : BDState :=
    { st with tree := tree1, total_time := time1, ec := st.ec + 1 }
  if (match cfg.max_time with
      | none => true
      | some m => decide (time1 ≤ m)) then
    let ws := eventWeights (tipRates st.tree)
    let total := ws.sum
    let probs := ws.map (fun w => w / total)
    let u := rng.unif st.uc
    match weighted_choice_idx u probs with
    | none => .selectionFailure
    | some i =>
      let j := i / 2
      if i % 2 = 0 then
        .stepped { stBase with
          tree := birthAt cfg.birth_rate_sd cfg.death_rate_sd
                    (rng.gauss st.gc) (rng.gauss (st.gc + 1))
                    (rng.gauss (st.gc + 2)) (rng.gauss (st.gc + 3)) j tree1,
          uc := st.uc + 1, gc := st.gc + 4 }
      else
        if 1 < aliveCount tree1 then
          .stepped { stBase with tree := killAt j tree1, uc := st.uc + 1 }
        else
          bd_total_extinction_outcome cfg
            { stBase with tree := killAt j tree1, uc := st.uc + 1 }
  else
    .stepped stBase

/-- One iteration of the `while True` loop of lines 231-325: termination
checks, waiting-time draw, GSA slice recording (with the dead `break`
guarded by `terminate_at_full_tree`, lines 272-273), then the event
phase. -/
def bdStep (cfg : BDConfig) (rng : RngState) (st : BDState) : BDStepResult :=
  if bd_termination_check cfg st then .done st
  else
    let wt := rng.expv st.ec
    let recording := cfg.gsa_ntax.isSome
      && decide (cfg.num_extant_tips = some (aliveCount st.tree))
    let st' : BDState :=
      { st with targetted_time_slices :=
          if recording then st.targetted_time_slices ++ [(wt, st.tree)]
          else st.targetted_time_slices }
    if recording && terminate_at_full_tree cfg.gsa_ntax then .breakFullTree st'
    else bd_event_phase cfg rng st' wt

/-- Result of running the loop to completion. -/
inductive BDLoopResult where
  | exited (st : BDState)
  | raised
  | selectionFailure
  | outOfFuel
deriving DecidableEq

/-- Fuel-bounded iteration of `bdStep`; all three `break`s land at the
post-loop code (line 327), so they all produce `exited`. -/
def bdLoop (cfg : BDConfig) (rng : RngState) : ℕ → BDState → BDLoopResult
  | 0, _ => .outOfFuel
  | fuel + 1, st =>
    match bdStep cfg rng st with
    | .done st' => .exited st'
    | .breakFullTree st' => .exited st'
    | .breakGsaTotalExtinction st' => .exited st'
    | .stepped st' => bdLoop cfg rng fuel st'
    | .raisedTotalExtinction => .raised
    | .selectionFailure => .selectionFailure

/-- Fresh-tree initial state (lines 205-220): a seed tip with zero edge
length, the base rates, extant; empty extinct set; clock at zero. -/
def bd_initial_state (cfg : BDConfig) : BDState :=
  { tree := .tip 0 cfg.birth_rate cfg.death_rate true,
    total_time := 0, targetted_time_slices := [], ec := 0, uc := 0, gc := 0 }

/-- Add a length to the root edge of a tree (used when a pruned
unifurcation's edge is absorbed by its remaining child). -/
def addRootLen (d : ℚ) : LTree → LTree
  | .tip len br dr alive => .tip (len + d) br dr alive
  | .node len l r => .node (len + d) l r

/-- Modelled from the spec: `Tree.prune_subtree` and
`suppress_unifurcations` are external tree primitives (spec §6, not under
`src/`).  Lines 357-364 prune every extinct tip's single-child ancestry
and then collapse remaining unifurcations; on a binary tree this removes
every dead tip, a node both of whose subtrees vanish vanishes itself, and
a node with one surviving subtree is collapsed into it with edge lengths
added.  `none` means nothing survives. -/
def pruneDead : LTree → Option LTree
  | .tip len br dr alive => if alive then some (.tip len br dr alive) else none
  | .node len l r =>
    match pruneDead l, pruneDead r with
    | some l', some r' => some (.node len l' r')
    | some l', none => some (addRootLen len l')
    | none, some r' => some (addRootLen len r')
    | none, none => none

/-- Post-processing of lines 357-364 (taxon assignment, lines 366-378,
is omitted: it changes no structure, lengths or flags). -/
def bd_postprocess (cfg : BDConfig) (t : LTree) : Option LTree :=
  if cfg.is_retain_extinct_tips then some t else pruneDead t

/-- GSA finalization (lines 327-355), under whole-tree snapshots: the
slice scan of lines 331-336 picks a slice; restoring each recorded edge
to `prev_length + last_waiting_time` and discarding its descendants
(lines 341-355) yields the snapshot tree with every extant edge grown by
the slice's own dwell duration.  `none` models the `assert` of line 337
firing (no slice selected). -/
def gsa_finalize (rng : RngState) (st : BDState) : Option LTree :=
  let durations := st.targetted_time_slices.map Prod.fst
  match select_time_slice (rng.unif st.uc) durations with
  | none => none
  | some i =>
    match st.targetted_time_slices.get? i with
    | none => none
    | some (dur, snap) => some (growTips dur snap)

/-- Errors of `birth_death_tree`: the configuration `ValueError`s, the
`TreeSimTotalExtinctionException`, and embedding artifacts
(`selectionFailure` for a failed weighted choice, `gsaSelectionAssertion`
for the line-337 assert, `allTipsPruned` for a fully pruned tree,
`outOfFuel` for exhausted fuel — none of which any proved run reaches). -/
inductive BDError where
  | invalidConfiguration
  | totalExtinction
  | selectionFailure
  | gsaSelectionAssertion
  | allTipsPruned
  | outOfFuel
deriving DecidableEq

/-- Embedding of `birth_death_tree` on the fresh-tree path: validate the
configuration (raising before any tree is created or mutated), run the
event loop, then GSA finalization (if in GSA mode) and post-processing. -/
def birth_death_tree_run (cfg : BDConfig) (rng : RngState) (fuel : ℕ) : Except BDError LTree :=
  if bd_invalid_configuration cfg then .error .invalidConfiguration
  else
    match bdLoop cfg rng fuel (bd_initial_state cfg) with
    | .raised => .error .totalExtinction
    | .selectionFailure => .error .selectionFailure
    | .outOfFuel => .error .outOfFuel
    | .exited st =>
      if cfg.gsa_ntax.isSome then
        match gsa_finalize rng st with
        | none => .error .gsaSelectionAssertion
        | some t =>
          match bd_postprocess cfg t with
          | none => .error .allTipsPruned
          | some t' => .ok t'
      else
        match bd_postprocess cfg st.tree with
        | none => .error .allTipsPruned
        | some t' => .ok t'

/-- The configuration of the pure-birth scenario of the claims: birth rate
`b`, death rate 0, no rate mutation, extant-tip target `n`, no other
termination condition, no GSA. -/
def pureBirthConfig (b : ℚ) (n : ℕ) (retain rep : Bool) : BDConfig :=
  { birth_rate := b, death_rate := 0, birth_rate_sd := 0, death_rate_sd := 0,
    num_extant_tips := some n, num_extinct_tips := none, num_total_tips := none,
    max_time := none, gsa_ntax := none,
    is_retain_extinct_tips := retain, repeat_until_success := rep }

/-- Every tip is extant (the extinct set is empty). -/
def allAliveP : LTree → Prop
  | .tip _ _ _ alive => alive = true
  | .node _ l r => allAliveP l ∧ allAliveP r

/-- Every edge length is non-negative. -/
def edgesNonnegP : LTree → Prop
  | .tip len _ _ _ => 0 ≤ len
  | .node len l r => 0 ≤ len ∧ edgesNonnegP l ∧ edgesNonnegP r

/-- Starting from accumulated depth `acc`, the edge-length sum of the path
from the root to every leaf equals `T`. -/
def depthsAreP (T : ℚ) : LTree → ℚ → Prop
  | .tip len _ _ _, acc => acc + len = T
  | .node len l r, acc => depthsAreP T l (acc + len) ∧ depthsAreP T r (acc + len)

/-- Every tip carries exactly the rates `(b, d)`. -/
def ratesAreP (b d : ℚ) : LTree → Prop
  | .tip _ br dr _ => br = b ∧ dr = d
  | .node _ l r => ratesAreP b d l ∧ ratesAreP b d r

/-- Tree of the discrete-time simulator (`discrete_birth_death_tree`,
fresh-tree path, lines 457-462): internal nodes keep the rate attributes
they carried as tips, and there is no extinct set (dead leaves are pruned
immediately). -/
inductive DTree where
  | tip (len : ℚ) (birth_rate : ℚ) (death_rate : ℚ)
  | node (len : ℚ) (birth_rate : ℚ) (death_rate : ℚ) (left : DTree) (right : DTree)
deriving DecidableEq

/-- Number of leaves (`len(leaf_nodes)`). -/
def dLeafCount : DTree → ℕ
  | .tip _ _ _ => 1
  | .node _ _ _ l r => dLeafCount l + dLeafCount r

/-- Add a length to the root edge (edge merging of a collapsed
unifurcation). -/
def dAddRootLen (d : ℚ) : DTree → DTree
  | .tip len br dr => .tip (len + d) br dr
  | .node len br dr l r => .node (len + d) br dr l r

/-- Line 509-510 (and 473): add the given amount to every leaf edge. -/
def dAddToLeaves (q : ℚ) : DTree → DTree
  | .tip len br dr => .tip (len + q) br dr
  | .node len br dr l r => .node len br dr (dAddToLeaves q l) (dAddToLeaves q r)

/-- Configuration of `discrete_birth_death_tree` (lines 435-450). -/
structure DConfig where
  birth_rate : ℚ
  death_rate : ℚ
  birth_rate_sd : ℚ
  death_rate_sd : ℚ
  target_num_taxa : Option ℕ
  target_num_gens : Option ℕ
  repeat_until_success : Bool
deriving DecidableEq

/-- One generation's processing of the leaves of a (non-seed) subtree,
left to right (lines 467-495): each leaf's edge grows by one, then one
uniform draw decides birth (`u < birth_rate`: two zero-length children
with rates mutated by `rate + sd * gauss`), death
(`birth_rate < u < birth_rate + death_rate`: the leaf is pruned,
modelled as `none`), or persistence.  A pruned leaf's parent unifurcation
is collapsed with edge lengths added, and a subtree all of whose leaves
die vanishes (`Tree.prune_subtree`/`suppress_unifurcations` are external
primitives, modelled from the spec §6).  Returns the surviving subtree and
the advanced uniform/gauss cursors. -/
def discrete_gen_rec (bsd dsd : ℚ) (rng : RngState) : DTree → ℕ → ℕ → Option DTree × ℕ × ℕ
  | .tip len br dr, uc, gc =>
    let len1 := len + 1
    let u := rng.unif uc
    if u < br then
      (some (.node len1 br dr
              (.tip 0 (br + bsd * rng.gauss gc) (dr + dsd * rng.gauss (gc + 1)))
              (.tip 0 (br + bsd * rng.gauss (gc + 2)) (dr + dsd * rng.gauss (gc + 3)))),
       uc + 1, gc + 4)
    else if br < u ∧ u < br + dr then (none, uc + 1, gc)
    else (some (.tip len1 br dr), uc + 1, gc)
  | .node len br dr l r, uc, gc =>
    let (l', uc1, gc1) := discrete_gen_rec bsd dsd rng l uc gc
    let (r', uc2, gc2) := discrete_gen_rec bsd dsd rng r uc1 gc1
    (match l', r' with
     | some l2, some r2 => some (.node len br dr l2 r2)
     | some l2, none => some (dAddRootLen len l2)
     | none, some r2 => some (dAddRootLen len r2)
     | none, none => none, uc2, gc2)

/-- Result of one generation: the new tree, whether the generation counter
was reset to zero (seed death with retry, line 494), and the advanced
cursors — or the `TreeSimTotalExtinctionException` of line 491. -/
inductive DGenResult where
  | ok (t : DTree) (reset : Bool) (uc : ℕ) (gc : ℕ)
  | raisedTotalExtinction
deriving DecidableEq

/-- One full generation (lines 467-495).  When the whole tree is the bare
seed leaf, its death hits the `nd is tree.seed_node` branch: raise
`TreeSimTotalExtinctionException` if retry is disabled, else reset the
generation counter (only the counter — the tree keeps its grown edge).
Otherwise the seed is not a leaf and deaths prune; if every leaf dies, the
tree collapses back to the bare seed. -/
def discrete_generation (cfg : DConfig) (rng : RngState) (t : DTree) (uc gc : ℕ) : DGenResult :=
  match t with
  | .tip len br dr =>
    let len1 := len + 1
    let u := rng.unif uc
    if u < br then
      .ok (.node len1 br dr
            (.tip 0 (br + cfg.birth_rate_sd * rng.gauss gc)
                    (dr + cfg.death_rate_sd * rng.gauss (gc + 1)))
            (.tip 0 (br + cfg.birth_rate_sd * rng.gauss (gc + 2))
                    (dr + cfg.death_rate_sd * rng.gauss (gc + 3))))
          false (uc + 1) (gc + 4)
    else if br < u ∧ u < br + dr then
      if !cfg.repeat_until_success then .raisedTotalExtinction
      else .ok (.tip len1 br dr) true (uc + 1) gc
    else .ok (.tip len1 br dr) false (uc + 1) gc
  | .node len br dr l r =>
    match discrete_gen_rec cfg.birth_rate_sd cfg.death_rate_sd rng (.node len br dr l r) uc gc with
    | (some t', uc', gc') => .ok t' false uc' gc'
    | (none, uc', gc') => .ok (.tip len br dr) false uc' gc'

/-- Errors of the discrete simulator. -/
inductive DBDError where
  | totalExtinction
  | outOfFuel
deriving DecidableEq

/-- Fuel-bounded main loop of lines 465-497: run generations while the
leaf-count target is unmet and the generation bound unreached.  After a
seed-death reset the counter restarts at zero, then the end-of-generation
`num_gens += 1` still applies (lines 494, 496). -/
def dLoop (cfg : DConfig) (rng : RngState) : ℕ → DTree → ℕ → ℕ → ℕ → Except DBDError (DTree × ℕ × ℕ × ℕ)
  | 0, _, _, _, _ => .error .outOfFuel
  | fuel + 1, t, gens, uc, gc =>
    if ((match cfg.target_num_taxa with
         | none => true
         | some k => decide (dLeafCount t < k)) &&
        (match cfg.target_num_gens with
         | none => true
         | some g => decide (gens < g))) then
      match discrete_generation cfg rng t uc gc with
      | .raisedTotalExtinction => .error .totalExtinction
      | .ok t' reset uc' gc' =>
        dLoop cfg rng fuel t' ((if reset then 0 else gens) + 1) uc' gc'
    else .ok (t, gens, uc, gc)

/-- Coda of lines 503-508: draw uniforms, counting quiet generations,
until a draw falls below `birth_rate + death_rate` (computed from the
BASE rates) or the generation bound applies (`num_gens` does not change
here, so the bound check is constant). -/
def dCoda (cfg : DConfig) (rng : RngState) : ℕ → ℕ → ℕ → ℕ → Except DBDError (ℕ × ℕ)
  | 0, _, _, _ => .error .outOfFuel
  | fuel + 1, gens, uc, acc =>
    if (match cfg.target_num_gens with
        | none => true
        | some g => decide (gens < g)) then
      if rng.unif uc < cfg.birth_rate + cfg.death_rate then .ok (acc, uc + 1)
      else dCoda cfg rng fuel gens (uc + 1) (acc + 1)
    else .ok (acc, uc)

/-- Embedding of `discrete_birth_death_tree` on the fresh-tree path
(lines 435-516): main loop, coda, and the final leaf-edge extension of
lines 509-510 (random taxon assignment, line 512-513, changes no
structure or lengths and is omitted). -/
def discrete_birth_death_tree_run (cfg : DConfig) (rng : RngState) (fuel : ℕ) :
    Except DBDError DTree :=
  match dLoop cfg rng fuel (.tip 0 cfg.birth_rate cfg.death_rate) 0 0 0 with
  | .error e => .error e
  | .ok (t, gens, uc, _) =>
    match dCoda cfg rng fuel gens uc 0 with
    | .error e => .error e
    | .ok (gadd, _) => .ok (dAddToLeaves (gadd : ℚ) t)

/-- Fixture: oracle whose waiting times are all 1, uniform draws all 0,
gauss draws all 0. -/
def bdPureRng : RngState :=
  ⟨fun _ => 1, fun _ => 0, fun _ => 0⟩

/-- Fixture: oracle whose waiting times are all 1, uniform draws all 3/4,
gauss draws all 0 (the 3/4 draw selects the death event of a lone
lineage with equal birth and death rates). -/
def bdRetryRng : RngState :=
  ⟨fun _ => 1, fun _ => 3/4, fun _ => 0⟩

/-- Fixture: birth rate 1, death rate 1, extant-tip target 2, retry
enabled, no GSA. -/
def bdRetryCfg : BDConfig :=
  { birth_rate := 1, death_rate := 1, birth_rate_sd := 0, death_rate_sd := 0,
    num_extant_tips := some 2, num_extinct_tips := none, num_total_tips := none,
    max_time := none, gsa_ntax := none,
    is_retain_extinct_tips := false, repeat_until_success := true }

/-- Fixture: discrete-simulator configuration with the DEFAULT retry flag
(`repeat_until_success` not given), birth rate 1/4, death rate 1/2,
taxon target 2. -/
def dbdDefaultCfg : DConfig :=
  { birth_rate := 1/4, death_rate := 1/2, birth_rate_sd := 0, death_rate_sd := 0,
    target_num_taxa := some 2, target_num_gens := none,
    repeat_until_success := dbd_resolve_repeat_until_success none }

/-- Fixture: oracle whose uniform draws are all 1/2 (a death draw for a
leaf with birth rate 1/4 and death rate 1/2). -/
def dbdDeathRng : RngState :=
  ⟨fun _ => 0, fun _ => 1/2, fun _ => 0⟩

/-- C2: in GSA finalization, the scan of lines 331-336 lacks a `break`:
once `r` goes negative it stays negative, so `selected_slice` is
overwritten at every later iteration and the LAST slice is selected, not
the first slice whose cumulative dwell duration exceeds `u * total`.
Concretely, with dwell durations `[1, 1]` and `u = 1/4`
(`u * total = 1/2`), the first crossing is slice 0, but the code selects
slice 1. -/
theorem gsa_slice_scan_selects_last_not_first :
    select_time_slice (1/4) [1, 1] = some 1
  ∧ first_crossing_slice (1/4) [1, 1] = some 0
  ∧ some 1 ≠ (some 0 : Option ℕ) := by
  refine ⟨?_, ?_, by simp⟩
  · norm_num [select_time_slice, select_time_slice_go]
  · norm_num [first_crossing_slice, first_crossing_slice_go]

/-- C3: the caller-supplied-tree initialization (lines 191-204) does the
OPPOSITE of the claim and crashes.  For a tree with two leaves, the first
flagged extinct and the second not: the flagged leaf (node 0) is added to
the EXTANT set, and processing the unflagged leaf executes
`extinct_tips.append(...)` on a `set`, raising `AttributeError`.  The
spec's partition would put node 0 in the extinct set and node 1 in the
extant set. -/
theorem pre_existing_leaf_partition_inverted_and_crashes :
    bd_init_pre_existing_leaves [(true, true), (true, false)] 0 [] = .attr_err [0]
  ∧ spec_partition_leaves [(true, true), (true, false)] 0 = ([1], [0]) := by
  constructor
  · norm_num [bd_init_pre_existing_leaves]
  · norm_num [spec_partition_leaves]

/-- C5 (amended): on total extinction with retry enabled (and no usable
GSA slice), the run silently restarts: the extant/extinct sets are
restored to the initial snapshot (on the fresh-tree path, the seed alone
and the empty set), the seed's children are cleared, and the elapsed-time
counter is reset to zero — but the snapshot is a SHALLOW copy
(`set(extant_tips)`, line 217), so the seed keeps its accumulated edge
length rather than being restored to its pre-run state. -/
theorem extinction_retry_reset_semantics (cfg : BDConfig) (st : BDState)
    (hrep : cfg.repeat_until_success = true)
    (hgsa : cfg.gsa_ntax = none ∨ st.targetted_time_slices = []) :
    bd_total_extinction_outcome cfg st = .stepped (bd_reset_state cfg st)
  ∧ (bd_reset_state cfg st).tree
      = .tip (rootLen st.tree) cfg.birth_rate cfg.death_rate true
  ∧ (bd_reset_state cfg st).total_time = 0
  ∧ aliveCount (bd_reset_state cfg st).tree = 1
  ∧ deadCount (bd_reset_state cfg st).tree = 0
  ∧ isTip (bd_reset_state cfg st).tree = true
  ∧ rootLen (bd_reset_state cfg st).tree = rootLen st.tree := by
  unfold bd_total_extinction_outcome bd_reset_state
  rcases hgsa with h | h <;>
    simp [h, hrep, aliveCount, deadCount, isTip, rootLen]

/-- Witness for C5's amended theorem: the retry configuration
`bdRetryCfg` with a state whose seed has accumulated edge length 1. -/
theorem extinction_retry_reset_semantics_witness :
    bdRetryCfg.repeat_until_success = true
  ∧ (bdRetryCfg.gsa_ntax = none ∨
      (⟨.tip 1 1 1 false, 1, [], 1, 1, 0⟩ : BDState).targetted_time_slices = [])
  ∧ bd_total_extinction_outcome bdRetryCfg ⟨.tip 1 1 1 false, 1, [], 1, 1, 0⟩
      = .stepped (bd_reset_state bdRetryCfg ⟨.tip 1 1 1 false, 1, [], 1, 1, 0⟩) := by
  refine ⟨rfl, Or.inl rfl, ?_⟩
  exact (extinction_retry_reset_semantics bdRetryCfg ⟨.tip 1 1 1 false, 1, [], 1, 1, 0⟩
    rfl (Or.inl rfl)).1

/-- C5 (counterexample): a concrete step in which total extinction with
retry occurs.  From the fresh initial state (seed edge length 0), a
waiting time of 1 grows the seed edge to 1 and the uniform draw 3/4
selects the seed's death — total extinction.  The step silently resets
(`stepped`, clock 0), but the restored seed keeps edge length 1, not its
pre-run value 0: the snapshot does not restore the lineages to their
pre-run state. -/
theorem extinction_reset_keeps_accumulated_edge_length :
    bdStep bdRetryCfg bdRetryRng (bd_initial_state bdRetryCfg)
      = .stepped ⟨.tip 1 1 1 true, 0, [], 1, 1, 0⟩
  ∧ rootLen (bd_initial_state bdRetryCfg).tree = 0
  ∧ rootLen (LTree.tip 1 1 1 true) = 1
  ∧ (1 : ℚ) ≠ 0 := by
  refine ⟨?_, rfl, rfl, by norm_num⟩
  norm_num [bdStep, bdRetryCfg, bdRetryRng, bd_initial_state, bd_termination_check,
    bd_event_phase, bd_total_extinction_outcome, bd_reset_state, growTips, tipRates,
    eventWeights, weighted_choice_idx, weighted_choice_go, aliveCount, killAt, killAtAux,
    rootLen, terminate_at_full_tree]

/-- C7: when the log-likelihood computation fails (non-positive estimated
rate), the default call still returns a result with the log-likelihood
degraded to `-inf`, while the strict flag makes it raise instead
(lines 681-685). -/
theorem fit_log_likelihood_failure_default_and_strict
    (ages : List ℚ) (f : PBFit)
    (hcore : fit_pure_birth_core ages = some f) (hfail : f.smax ≤ 0) :
    fit_pure_birth_model ages false = some (.ok f.smax .neg_inf)
  ∧ fit_pure_birth_model ages true = some .raised := by
  unfold fit_pure_birth_model
  rw [hcore]
  simp [log_likelihood_fails, hfail]

/-- Witness for C7: the ages `[2, 2]` (a tie at the maximum) produce
`smax = 0`, whose log is undefined. -/
theorem fit_log_likelihood_failure_default_and_strict_witness :
    fit_pure_birth_core [2, 2] = some ⟨0, 3, 3⟩
  ∧ (0 : ℚ) ≤ 0
  ∧ fit_pure_birth_model [2, 2] false = some (.ok 0 .neg_inf)
  ∧ fit_pure_birth_model [2, 2] true = some .raised := by
  have hc : fit_pure_birth_core [2, 2] = some ⟨0, 3, 3⟩ := by
    norm_num [fit_pure_birth_core, sortDesc, insertDesc, maxIdxSat]
  refine ⟨hc, le_refl 0, ?_, ?_⟩
  · exact (fit_log_likelihood_failure_default_and_strict [2, 2] ⟨0, 3, 3⟩ hc le_rfl).1
  · exact (fit_log_likelihood_failure_default_and_strict [2, 2] ⟨0, 3, 3⟩ hc le_rfl).2

/-- C8: both simulators draw all randomness from the one resolved RNG
(the caller-supplied instance when given, per
`rng = kwargs.pop('rng', GLOBAL_RNG)`): with a caller-supplied RNG the
runs do not depend on the ambient global RNG at all, so two calls with
identical arguments and identically-seeded caller RNGs return identical
trees. -/
theorem caller_rng_reproducibility
    (cfg : BDConfig) (fuel : ℕ) (r g1 g2 : RngState)
    (dcfg : DConfig) (dfuel : ℕ) :
    birth_death_tree_run cfg (resolve_rng (some r) g1) fuel
      = birth_death_tree_run cfg (resolve_rng (some r) g2) fuel
  ∧ discrete_birth_death_tree_run dcfg (resolve_rng (some r) g1) dfuel
      = discrete_birth_death_tree_run dcfg (resolve_rng (some r) g2) dfuel :=
  ⟨rfl, rfl⟩

/-- C10: the two simulators default the retry flag oppositely:
`birth_death_tree` defaults `repeat_until_success` to `True` (line 152)
and then silently absorbs total extinction by resetting (lines 316-325),
while `discrete_birth_death_tree` defaults it to `False` (line 449) and
raises `TreeSimTotalExtinctionException` when its only lineage dies
(lines 489-491). -/
theorem repeat_until_success_defaults_differ :
    bd_resolve_repeat_until_success none = true
  ∧ dbd_resolve_repeat_until_success none = false
  ∧ bd_total_extinction_outcome
      { bdRetryCfg with repeat_until_success := bd_resolve_repeat_until_success none }
      ⟨.tip 1 1 1 false, 1, [], 1, 1, 0⟩
      = .stepped ⟨.tip 1 1 1 true, 0, [], 1, 1, 0⟩
  ∧ discrete_birth_death_tree_run dbdDefaultCfg dbdDeathRng 2
      = .error .totalExtinction := by
  refine ⟨rfl, rfl, ?_, ?_⟩
  · norm_num [bd_total_extinction_outcome, bd_reset_state, bdRetryCfg,
      bd_resolve_repeat_until_success, rootLen]
  · norm_num [discrete_birth_death_tree_run, dbdDefaultCfg, dbdDeathRng, dLoop,
      dLeafCount, discrete_generation, discrete_gen_rec, dCoda, dAddToLeaves,
      dbd_resolve_repeat_until_success]

/-- C1 (counterexample): at the sorted ages `[3, 2, 1]` (so `n = 4` tips),
the code computes `smax = (up - lo)/(2*t1 + (t2 + t3)) = 2/9`, whereas the
claimed formula `(n-1)/(2*t_1 + sum of the remaining ages)` gives
`3/9 = 1/3`: the code's numerator is `n - 2`, not `n - 1`. -/
theorem fit_pure_birth_rate_claimed_formula_fails :
    fit_pure_birth_core [3, 2, 1] = some ⟨2/9, 2, 4⟩
  ∧ ¬((2 : ℚ)/9 = ((4 : ℚ) - 1)/(2*3 + (2 + 1))) := by
  constructor
  · norm_num [fit_pure_birth_core, sortDesc, insertDesc, maxIdxSat]
  · norm_num

/-- Helper: the event phase never produces the `breakFullTree` outcome. -/
theorem bd_event_phase_ne_breakFullTree (cfg : BDConfig) (rng : RngState)
    (st : BDState) (wt : ℚ) (st' : BDState) :
    bd_event_phase cfg rng st wt ≠ .breakFullTree st' := by
  intro h
  unfold bd_event_phase bd_total_extinction_outcome at h
  simp only [] at h
  rcases hw : weighted_choice_idx (rng.unif st.uc)
      (List.map (fun w => w / (eventWeights (tipRates st.tree)).sum)
        (eventWeights (tipRates st.tree))) with _ | i <;>
    rw [hw] at h <;> repeat' split at h
  all_goals simp_all

/-- C9: the `break` of line 273, guarded by `terminate_at_full_tree`
inside the GSA snapshot-recording block, is never executed: the block
runs only when `gsa_ntax` is not `None` (line 264), while
`terminate_at_full_tree` is true only when `gsa_ntax` is `None`
(lines 171-174), so no iteration of the loop ever takes that break. -/
theorem gsa_recording_break_unreachable (cfg : BDConfig) (rng : RngState)
    (st : BDState) (st' : BDState) :
    bdStep cfg rng st ≠ .breakFullTree st' := by
  intro h
  unfold bdStep at h
  simp only [] at h
  split at h
  · simp at h
  · rcases hg : cfg.gsa_ntax with _ | g <;> rw [hg] at h
    · simp only [terminate_at_full_tree, Option.isSome_none, Bool.false_and,
        Bool.false_eq_true, if_false] at h
      exact bd_event_phase_ne_breakFullTree _ _ _ _ _ h
    · simp only [terminate_at_full_tree, Bool.and_false, Bool.false_eq_true,
        if_false] at h
      exact bd_event_phase_ne_breakFullTree _ _ _ _ _ h

/-- Helper for C6: the validation flag holds exactly on the four invalid
configurations. -/
theorem bd_invalid_iff_aux (cfg : BDConfig) :
    bd_invalid_configuration cfg = true ↔
      ((cfg.num_extant_tips = none ∧ cfg.num_extinct_tips = none ∧
        cfg.num_total_tips = none ∧ cfg.max_time = none)
       ∨ (cfg.gsa_ntax ≠ none ∧ cfg.num_extant_tips = none)
       ∨ (cfg.gsa_ntax ≠ none ∧ (cfg.num_extinct_tips ≠ none ∨ cfg.num_total_tips ≠ none))
       ∨ (∃ g n, cfg.gsa_ntax = some g ∧ cfg.num_extant_tips = some n ∧ g < n)) := by
  obtain ⟨br, dr, bsd, dsd, ne, nx, nt, mt, g, ret, rep⟩ := cfg
  rcases ne with _ | n <;> rcases nx with _ | x <;> rcases nt with _ | t <;>
    rcases mt with _ | m <;> rcases g with _ | gv <;>
    simp [bd_invalid_configuration]

/-- C6: `birth_death_tree` fails with the invalid-configuration
`ValueError` — raised by the validation code of lines 136-183, before any
tree is created or mutated — if and only if: no termination condition is
given; or `gsa_ntax` is given without `num_extant_tips`; or `gsa_ntax` is
given together with `num_extinct_tips` or `num_total_tips`; or `gsa_ntax`
is less than `num_extant_tips`. -/
theorem bd_run_invalid_iff (cfg : BDConfig) (rng : RngState) (fuel : ℕ) :
    birth_death_tree_run cfg rng fuel = .error .invalidConfiguration ↔
      ((cfg.num_extant_tips = none ∧ cfg.num_extinct_tips = none ∧
        cfg.num_total_tips = none ∧ cfg.max_time = none)
       ∨ (cfg.gsa_ntax ≠ none ∧ cfg.num_extant_tips = none)
       ∨ (cfg.gsa_ntax ≠ none ∧ (cfg.num_extinct_tips ≠ none ∨ cfg.num_total_tips ≠ none))
       ∨ (∃ g n, cfg.gsa_ntax = some g ∧ cfg.num_extant_tips = some n ∧ g < n)) := by
  rw [← bd_invalid_iff_aux]
  unfold birth_death_tree_run
  by_cases hv : bd_invalid_configuration cfg = true
  · simp [hv]
  · simp only [Bool.not_eq_true] at hv
    simp only [hv, Bool.false_eq_true, if_false]
    constructor
    · intro h
      exfalso
      revert h
      repeat' split
      all_goals simp
    · intro h
      simp at h

theorem sortDesc_cons (a : ℚ) (l : List ℚ) :
    sortDesc (a :: l) = insertDesc a (sortDesc l) := rfl

theorem insertDesc_top (a : ℚ) (l : List ℚ) (h : ∀ y ∈ l, y ≤ a) :
    insertDesc a l = a :: l := by
  cases l with
  | nil => rfl
  | cons b t => simp [insertDesc, h b (by simp)]

theorem sortDesc_eq_self (l : List ℚ) (h : List.Pairwise (fun x y => y ≤ x) l) :
    sortDesc l = l := by
  induction l with
  | nil => rfl
  | cons a t ih =>
    rw [sortDesc_cons, ih (List.Pairwise.of_cons h)]
    exact insertDesc_top a t (fun y hy => (List.pairwise_cons.mp h).1 y hy)

theorem maxIdxSat_none (p : ℚ → Bool) (l : List ℚ) (k : ℕ)
    (h : ∀ y ∈ l, p y = false) : maxIdxSat p l k = none := by
  induction l generalizing k with
  | nil => rfl
  | cons a t ih =>
    simp [maxIdxSat, ih (k + 1) (fun y hy => h y (List.mem_cons_of_mem a hy)),
      h a (List.mem_cons_self a t)]

theorem maxIdxSat_all (p : ℚ → Bool) (a : ℚ) (l : List ℚ) (k : ℕ)
    (h : ∀ y ∈ a :: l, p y = true) : maxIdxSat p (a :: l) k = some (k + l.length) := by
  induction l generalizing a k with
  | nil => simp [maxIdxSat, h a (by simp)]
  | cons b t ih =>
    have hbt := ih b (k + 1) (fun y hy => h y (List.mem_cons_of_mem a hy))
    have : maxIdxSat p (a :: b :: t) k =
        match maxIdxSat p (b :: t) (k + 1) with
        | some m => some m
        | none => if p a then some k else none := rfl
    rw [this, hbt]
    simp [List.length_cons]
    omega

theorem map_sub_zero (l : List ℚ) : l.map (fun i => i - 0) = l := by
  induction l <;> simp_all

/-- Helper for C1: symbolic evaluation of the fitter core on a sorted age
list with a strict maximum. -/
theorem fit_core_formula
    (t1 : ℚ) (rest : List ℚ)
    (hne : rest ≠ [])
    (hsorted : List.Pairwise (fun x y => y ≤ x) rest)
    (hlt : ∀ y ∈ rest, y < t1)
    (hnn : ∀ y ∈ rest, 0 ≤ y) :
    fit_pure_birth_core (t1 :: rest)
      = some ⟨(rest.length : ℚ) / (2 * t1 + rest.sum), 2, rest.length + 2⟩ := by
  obtain ⟨y0, hy0⟩ := List.exists_mem_of_ne_nil rest hne
  have ht1pos : 0 < t1 := lt_of_le_of_lt (hnn y0 hy0) (hlt y0 hy0)
  have hsumnn : 0 ≤ rest.sum := List.sum_nonneg (fun y hy => hnn y hy)
  have hdenpos : 0 < 2 * t1 + rest.sum := by linarith
  have hsort : sortDesc (t1 :: rest) = t1 :: rest := by
    apply sortDesc_eq_self
    exact List.pairwise_cons.mpr ⟨fun y hy => le_of_lt (hlt y hy), hsorted⟩
  have hfilter : (t1 :: rest).filter (fun i => decide (i < t1) && decide ((0 : ℚ) ≤ i)) = rest := by
    have hpt1 : (decide (t1 < t1) && decide ((0 : ℚ) ≤ t1)) = false := by simp
    rw [List.filter_cons]
    simp only [hpt1, Bool.false_eq_true, if_false]
    apply List.filter_eq_self.mpr
    intro y hy
    simp [hlt y hy, hnn y hy]
  have hlo : maxIdxSat (fun i => decide (t1 ≤ i)) (t1 :: rest) 0 = some 0 := by
    have htail : maxIdxSat (fun i => decide (t1 ≤ i)) rest 1 = none := by
      apply maxIdxSat_none
      intro y hy
      simp [not_le.mpr (hlt y hy)]
    have : maxIdxSat (fun i => decide (t1 ≤ i)) (t1 :: rest) 0 =
        match maxIdxSat (fun i => decide (t1 ≤ i)) rest 1 with
        | some m => some m
        | none => if decide (t1 ≤ t1) then some 0 else none := rfl
    rw [this, htail]
    simp
  have hup : maxIdxSat (fun i => decide ((0 : ℚ) ≤ i)) (t1 :: rest) 0 = some rest.length := by
    have := maxIdxSat_all (fun i => decide ((0 : ℚ) ≤ i)) t1 rest 0 ?_
    · simpa using this
    · intro y hy
      rcases List.mem_cons.mp hy with rfl | hy'
      · simp [le_of_lt ht1pos]
      · simp [hnn y hy']
  unfold fit_pure_birth_core
  rw [hsort]
  simp only [hfilter, hlo, hup, le_refl, if_true, map_sub_zero]
  simp only [List.headI, Nat.zero_add, Nat.add_sub_cancel, List.drop_one,
    List.tail_cons, List.take_length]
  rw [if_neg]
  · simp only [Option.some.injEq, PBFit.mk.injEq]
    refine ⟨?_, trivial, trivial⟩
    push_cast
    ring
  · push_cast
    linarith

/-- C1 (amended): for internal-node ages `t1 :: rest` sorted descending
with a STRICT maximum (`n = rest.length + 2` tips, `n ≥ 3`) and all ages
non-negative, the code returns `birth_rate = (n-2) / (2*t1 + Σ rest)` —
numerator `n-2`, not the claimed `n-1` — and (the log term being defined,
as the rate is positive) `log_likelihood = Σ_{i=2}^{n-1} ln i
+ (n-2)·ln(birth_rate) - (n-2)`, i.e. `ln((n-1)!/1!)` plus the rate term
with coefficient `n-2`.  Here `rest.length = n - 2`. -/
theorem fit_pure_birth_rate_and_loglik_formula
    (t1 : ℚ) (rest : List ℚ)
    (hne : rest ≠ [])
    (hsorted : List.Pairwise (fun x y => y ≤ x) rest)
    (hlt : ∀ y ∈ rest, y < t1)
    (hnn : ∀ y ∈ rest, 0 ≤ y) :
    fit_pure_birth_core (t1 :: rest)
      = some ⟨(rest.length : ℚ) / (2 * t1 + rest.sum), 2, rest.length + 2⟩
  ∧ fit_pure_birth_model (t1 :: rest) false
      = some (.ok ((rest.length : ℚ) / (2 * t1 + rest.sum))
          (.val (fit_log_likelihood_value 2 (rest.length + 2)
            ((rest.length : ℚ) / (2 * t1 + rest.sum)))))
  ∧ fit_log_likelihood_value 2 (rest.length + 2) ((rest.length : ℚ) / (2 * t1 + rest.sum))
      = (((List.range' 2 rest.length).map (fun i => Real.log (i : ℝ))).sum)
        + (rest.length : ℝ) * Real.log (((rest.length : ℚ) / (2 * t1 + rest.sum) : ℚ) : ℝ)
        - (rest.length : ℝ) := by
  have hcore := fit_core_formula t1 rest hne hsorted hlt hnn
  obtain ⟨y0, hy0⟩ := List.exists_mem_of_ne_nil rest hne
  have ht1pos : 0 < t1 := lt_of_le_of_lt (hnn y0 hy0) (hlt y0 hy0)
  have hsumnn : 0 ≤ rest.sum := List.sum_nonneg (fun y hy => hnn y hy)
  have hdenpos : 0 < 2 * t1 + rest.sum := by linarith
  have hlenpos : 0 < rest.length := List.length_pos.mpr hne
  have hsmaxpos : 0 < (rest.length : ℚ) / (2 * t1 + rest.sum) := by
    apply div_pos _ hdenpos
    exact_mod_cast hlenpos
  refine ⟨hcore, ?_, ?_⟩
  · unfold fit_pure_birth_model
    rw [hcore]
    have hfail : log_likelihood_fails
        ⟨(rest.length : ℚ) / (2 * t1 + rest.sum), 2, rest.length + 2⟩ = false := by
      simp only [log_likelihood_fails, decide_eq_false_iff_not, not_le]
      exact hsmaxpos
    simp [hfail]
  · unfold fit_log_likelihood_value
    simp only [Nat.add_sub_cancel]
    push_cast
    ring

theorem fit_pure_birth_rate_and_loglik_formula_witness :
    (([2, 1] : List ℚ) ≠ []
  ∧ List.Pairwise (fun x y : ℚ => y ≤ x) [2, 1]
  ∧ (∀ y ∈ ([2, 1] : List ℚ), y < 3)
  ∧ (∀ y ∈ ([2, 1] : List ℚ), 0 ≤ y))
  ∧ fit_pure_birth_core [3, 2, 1] = some ⟨2/9, 2, 4⟩ := by
  have h1 : ([2, 1] : List ℚ) ≠ [] := by simp
  have h2 : List.Pairwise (fun x y : ℚ => y ≤ x) [2, 1] := by norm_num
  have h3 : ∀ y ∈ ([2, 1] : List ℚ), y < 3 := by
    intro y hy
    rcases List.mem_cons.mp hy with rfl | hy'
    · norm_num
    · simp at hy'
      rw [hy']
      norm_num
  have h4 : ∀ y ∈ ([2, 1] : List ℚ), 0 ≤ y := by
    intro y hy
    rcases List.mem_cons.mp hy with rfl | hy'
    · norm_num
    · simp at hy'
      rw [hy']
      norm_num
  refine ⟨⟨h1, h2, h3, h4⟩, ?_⟩
  have := (fit_pure_birth_rate_and_loglik_formula 3 [2, 1] h1 h2 h3 h4).1
  rw [this]
  norm_num

theorem aliveCount_growTips (wt : ℚ) (t : LTree) :
    aliveCount (growTips wt t) = aliveCount t := by
  induction t with
  | tip len br dr alive => cases alive <;> simp [growTips, aliveCount]
  | node len l r ihl ihr => simp [growTips, aliveCount, ihl, ihr]

theorem allAliveP_growTips (wt : ℚ) (t : LTree) (h : allAliveP t) :
    allAliveP (growTips wt t) := by
  induction t with
  | tip len br dr alive => cases alive <;> simp_all [growTips, allAliveP]
  | node len l r ihl ihr =>
    exact ⟨ihl h.1, ihr h.2⟩

theorem ratesAreP_growTips (b d wt : ℚ) (t : LTree) (h : ratesAreP b d t) :
    ratesAreP b d (growTips wt t) := by
  induction t with
  | tip len br dr alive => cases alive <;> simp_all [growTips, ratesAreP]
  | node len l r ihl ihr => exact ⟨ihl h.1, ihr h.2⟩

theorem edgesNonnegP_growTips (wt : ℚ) (hwt : 0 ≤ wt) (t : LTree) (h : edgesNonnegP t) :
    edgesNonnegP (growTips wt t) := by
  induction t with
  | tip len br dr alive =>
    cases alive with
    | false => simp_all [growTips, edgesNonnegP]
    | true =>
      simp_all [growTips, edgesNonnegP]
      linarith
  | node len l r ihl ihr => exact ⟨h.1, ihl h.2.1, ihr h.2.2⟩

theorem depthsAreP_growTips (T wt : ℚ) (t : LTree) (hA : allAliveP t) :
    ∀ acc, depthsAreP T t acc → depthsAreP (T + wt) (growTips wt t) acc := by
  induction t with
  | tip len br dr alive =>
    intro acc h
    rcases hA with rfl
    simp only [growTips, if_true, depthsAreP] at h ⊢
    linarith
  | node len l r ihl ihr =>
    intro acc h
    exact ⟨ihl hA.1 _ h.1, ihr hA.2 _ h.2⟩

theorem rootLen_growTips (wt : ℚ) (t : LTree) (hA : allAliveP t) :
    rootLen (growTips wt t) = rootLen t + (if isTip t = true then wt else 0) := by
  cases t with
  | tip len br dr alive =>
    rcases hA with rfl
    simp [growTips, rootLen, isTip]
  | node len l r => simp [growTips, rootLen, isTip]

theorem tipRates_replicate (b d : ℚ) (t : LTree)
    (hA : allAliveP t) (hR : ratesAreP b d t) :
    tipRates t = List.replicate (aliveCount t) (b, d) := by
  induction t with
  | tip len br dr alive =>
    rcases hA with rfl
    rcases hR with ⟨rfl, rfl⟩
    simp [tipRates, aliveCount]
  | node len l r ihl ihr =>
    simp only [tipRates, aliveCount, ihl hA.1 hR.1, ihr hA.2 hR.2]
    rw [List.replicate_add]

theorem allAliveP_deadCount (t : LTree) (h : allAliveP t) : deadCount t = 0 := by
  induction t with
  | tip len br dr alive => rcases h with rfl; simp [deadCount]
  | node len l r ihl ihr => simp [deadCount, ihl h.1, ihr h.2]

theorem allAliveP_leafCount (t : LTree) (h : allAliveP t) : leafCount t = aliveCount t := by
  induction t with
  | tip len br dr alive => rcases h with rfl; simp [leafCount, aliveCount]
  | node len l r ihl ihr => simp [leafCount, aliveCount, ihl h.1, ihr h.2]

theorem pruneDead_allAlive (t : LTree) (h : allAliveP t) : pruneDead t = some t := by
  induction t with
  | tip len br dr alive => rcases h with rfl; simp [pruneDead]
  | node len l r ihl ihr => simp [pruneDead, ihl h.1, ihr h.2]

theorem eventWeights_replicate_succ (k : ℕ) (b d : ℚ) :
    eventWeights (List.replicate (k + 1) (b, d)) =
      b :: d :: eventWeights (List.replicate k (b, d)) := by
  rw [List.replicate_succ]
  rfl

theorem eventWeights_replicate_sum (k : ℕ) (b d : ℚ) :
    (eventWeights (List.replicate k (b, d))).sum = k * (b + d) := by
  induction k with
  | zero => simp [eventWeights]
  | succ k ih =>
    rw [eventWeights_replicate_succ]
    simp only [List.sum_cons, ih]
    push_cast
    ring

theorem eventWeights_replicate_map_div (k : ℕ) (b d c : ℚ) :
    (eventWeights (List.replicate k (b, d))).map (fun w => w / c) =
      eventWeights (List.replicate k (b / c, d / c)) := by
  induction k with
  | zero => simp [eventWeights]
  | succ k ih =>
    rw [eventWeights_replicate_succ, eventWeights_replicate_succ]
    simp [ih]

/-- Helper: scanning interleaved `(w, 0)` weight blocks, the cumulative
scan lands on a birth entry (even offset) whenever the target lies within
the blocks' total mass. -/
theorem weighted_choice_go_blocks (w : ℚ) (u : ℚ) :
    ∀ (k : ℕ) (cum : ℚ) (idx : ℕ), cum ≤ u → u < cum + k * w →
      ∃ j < k, weighted_choice_go u (eventWeights (List.replicate k (w, 0))) cum idx
        = some (idx + 2 * j) := by
  intro k
  induction k with
  | zero =>
    intro cum idx hle hlt
    exfalso
    simp at hlt
    linarith
  | succ k ih =>
    intro cum idx hle hlt
    rw [eventWeights_replicate_succ]
    by_cases hcase : u < cum + w
    · refine ⟨0, Nat.succ_pos k, ?_⟩
      simp [weighted_choice_go, hcase]
    · push_neg at hcase
      have hrec := ih (cum + w + 0) (idx + 2) (by linarith) (by push_cast at hlt ⊢; linarith)
      obtain ⟨j, hj, hgo⟩ := hrec
      refine ⟨j + 1, by omega, ?_⟩
      have h1 : ¬(u < cum + w) := not_lt.mpr hcase
      have h2 : ¬(u < cum + w + 0) := by simpa using h1
      simp only [weighted_choice_go, h1, if_false, h2, hgo]
      congr 1
      omega

/-- Helper for C4: with `k ≥ 1` extant tips of equal birth rate `b > 0`
and death rate 0, the normalized weighted choice with a uniform draw in
`[0, 1)` selects a birth event (an even index `2*j` with `j < k`). -/
theorem weighted_choice_pure_birth (k : ℕ) (hk : 1 ≤ k) (b : ℚ) (hb : 0 < b)
    (u : ℚ) (hu0 : 0 ≤ u) (hu1 : u < 1) :
    ∃ j < k, weighted_choice_idx u
        ((eventWeights (List.replicate k (b, 0))).map
          (fun w => w / (eventWeights (List.replicate k (b, 0))).sum))
      = some (2 * j) := by
  have hsum : (eventWeights (List.replicate k (b, 0))).sum = (k : ℚ) * b := by
    rw [eventWeights_replicate_sum]
    ring
  have hkpos : (0 : ℚ) < (k : ℚ) := by exact_mod_cast hk
  have hkb : (0 : ℚ) < (k : ℚ) * b := mul_pos hkpos hb
  have hkw : (k : ℚ) * (b / ((k : ℚ) * b)) = 1 := by
    field_simp
  rw [hsum, eventWeights_replicate_map_div, zero_div]
  unfold weighted_choice_idx
  rw [eventWeights_replicate_sum]
  have htarget : u * ((k : ℚ) * (b / ((k : ℚ) * b) + 0)) = u := by
    rw [add_zero, hkw, mul_one]
  rw [htarget]
  obtain ⟨j, hj, hgo⟩ := weighted_choice_go_blocks (b / ((k : ℚ) * b)) u k 0 0
    hu0 (by rw [zero_add, hkw]; exact hu1)
  exact ⟨j, hj, by simpa using hgo⟩

/-- `birthAtAux` with a spent index leaves the tree unchanged. -/
theorem birthAtAux_none (bsd dsd g1 g2 g3 g4 : ℚ) (t : LTree) :
    birthAtAux bsd dsd g1 g2 g3 g4 none t = (t, none) := by
  cases t <;> rfl

/-- Helper: `birthAtAux` with an index past all extant tips of the subtree
passes through, decrementing the index by the subtree's extant count. -/
theorem birthAtAux_ge (bsd dsd g1 g2 g3 g4 : ℚ) :
    ∀ (t : LTree) (j : ℕ), aliveCount t ≤ j →
      birthAtAux bsd dsd g1 g2 g3 g4 (some j) t = (t, some (j - aliveCount t)) := by
  intro t
  induction t with
  | tip len br dr alive =>
    intro j hj
    cases alive with
    | false => simp [birthAtAux, aliveCount]
    | true =>
      simp only [aliveCount, if_true] at hj
      have : j ≠ 0 := by omega
      simp [birthAtAux, this, aliveCount]
  | node len l r ihl ihr =>
    intro j hj
    simp only [aliveCount] at hj
    have hl : aliveCount l ≤ j := by omega
    have hr : aliveCount r ≤ j - aliveCount l := by omega
    simp only [birthAtAux, ihl j hl, ihr _ hr, aliveCount]
    have : j - aliveCount l - aliveCount r = j - (aliveCount l + aliveCount r) := by omega
    rw [this]

/-- Helper for C4: a birth applied (with zero rate-mutation sds) at an
in-range extant index preserves the pure-birth invariants, adds one extant
tip, keeps the root edge, and leaves an internal root. -/
theorem birthAtAux_lt (b g1 g2 g3 g4 : ℚ) :
    ∀ (t : LTree) (j : ℕ), allAliveP t → ratesAreP b 0 t → j < aliveCount t →
      (birthAtAux 0 0 g1 g2 g3 g4 (some j) t).2 = none
    ∧ allAliveP (birthAtAux 0 0 g1 g2 g3 g4 (some j) t).1
    ∧ ratesAreP b 0 (birthAtAux 0 0 g1 g2 g3 g4 (some j) t).1
    ∧ aliveCount (birthAtAux 0 0 g1 g2 g3 g4 (some j) t).1 = aliveCount t + 1
    ∧ (∀ T acc, depthsAreP T t acc → depthsAreP T (birthAtAux 0 0 g1 g2 g3 g4 (some j) t).1 acc)
    ∧ (edgesNonnegP t → edgesNonnegP (birthAtAux 0 0 g1 g2 g3 g4 (some j) t).1)
    ∧ rootLen (birthAtAux 0 0 g1 g2 g3 g4 (some j) t).1 = rootLen t
    ∧ isTip (birthAtAux 0 0 g1 g2 g3 g4 (some j) t).1 = false := by
  intro t
  induction t with
  | tip len br dr alive =>
    intro j hA hR hj
    rcases hA with rfl
    simp only [aliveCount, if_true] at hj
    have hj0 : j = 0 := by omega
    subst hj0
    have key : birthAtAux 0 0 g1 g2 g3 g4 (some 0) (.tip len br dr true) =
        (.node len (.tip 0 (br + 0 * g1) (dr + 0 * g2) true)
                   (.tip 0 (br + 0 * g3) (dr + 0 * g4) true), none) := rfl
    rw [key]
    refine ⟨rfl, ?_, ?_, ?_, ?_, ?_, rfl, rfl⟩
    · simp [allAliveP]
    · simp [ratesAreP, hR.1, hR.2]
    · simp [aliveCount]
    · intro T acc h
      simp only [depthsAreP] at h ⊢
      constructor <;> linarith
    · intro h
      simp only [edgesNonnegP] at h ⊢
      refine ⟨h, by norm_num, by norm_num⟩
  | node len l r ihl ihr =>
    intro j hA hR hj
    simp only [aliveCount] at hj
    by_cases hcase : j < aliveCount l
    · obtain ⟨h2, hA', hR', hc', hd', he', hrl', _⟩ := ihl j hA.1 hR.1 hcase
      have key : birthAtAux 0 0 g1 g2 g3 g4 (some j) (.node len l r) =
          (.node len (birthAtAux 0 0 g1 g2 g3 g4 (some j) l).1 r, none) := by
        show (let p := birthAtAux 0 0 g1 g2 g3 g4 (some j) l
              let q := birthAtAux 0 0 g1 g2 g3 g4 p.2 r
              ((LTree.node len p.1 q.1), q.2)) = _
        simp only [h2, birthAtAux_none]
      rw [key]
      refine ⟨rfl, ⟨hA', hA.2⟩, ⟨hR', hR.2⟩, ?_, ?_, ?_, rfl, rfl⟩
      · simp only [aliveCount, hc']
        omega
      · intro T acc h
        exact ⟨hd' T _ h.1, h.2⟩
      · intro h
        exact ⟨h.1, he' h.2.1, h.2.2⟩
    · push_neg at hcase
      have hge := birthAtAux_ge 0 0 g1 g2 g3 g4 l j hcase
      have hjr : j - aliveCount l < aliveCount r := by omega
      obtain ⟨h2, hA', hR', hc', hd', he', hrl', _⟩ := ihr (j - aliveCount l) hA.2 hR.2 hjr
      have key : birthAtAux 0 0 g1 g2 g3 g4 (some j) (.node len l r) =
          (.node len l (birthAtAux 0 0 g1 g2 g3 g4 (some (j - aliveCount l)) r).1, none) := by
        show (let p := birthAtAux 0 0 g1 g2 g3 g4 (some j) l
              let q := birthAtAux 0 0 g1 g2 g3 g4 p.2 r
              ((LTree.node len p.1 q.1), q.2)) = _
        simp only [hge, h2]
      rw [key]
      refine ⟨rfl, ⟨hA.1, hA'⟩, ⟨hR.1, hR'⟩, ?_, ?_, ?_, rfl, rfl⟩
      · simp only [aliveCount, hc']
        omega
      · intro T acc h
        exact ⟨h.1, hd' T _ h.2⟩
      · intro h
        exact ⟨h.1, h.2.1, he' h.2.2⟩

/-- Helper for C4: one loop iteration in the pure-birth configuration
(death rate 0, no rate mutation) below the target always realizes a birth
and preserves the run invariants. -/
theorem pure_birth_step (b : ℚ) (hb : 0 < b) (n : ℕ) (retain rep : Bool)
    (rng : RngState)
    (hexp : ∀ i, 0 ≤ rng.expv i) (hu : ∀ i, 0 ≤ rng.unif i ∧ rng.unif i < 1)
    (st : BDState)
    (hA : allAliveP st.tree) (hR : ratesAreP b 0 st.tree)
    (hE : edgesNonnegP st.tree) (hD : depthsAreP st.total_time st.tree 0)
    (hS : st.targetted_time_slices = [])
    (hk : 1 ≤ aliveCount st.tree) (hlt : aliveCount st.tree < n) :
    ∃ st', bdStep (pureBirthConfig b n retain rep) rng st = .stepped st'
      ∧ allAliveP st'.tree ∧ ratesAreP b 0 st'.tree ∧ edgesNonnegP st'.tree
      ∧ depthsAreP st'.total_time st'.tree 0
      ∧ st'.targetted_time_slices = []
      ∧ aliveCount st'.tree = aliveCount st.tree + 1
      ∧ isTip st'.tree = false
      ∧ rootLen st'.tree = rootLen st.tree + (if isTip st.tree = true then rng.expv st.ec else 0)
      ∧ st'.ec = st.ec + 1 := by
  obtain ⟨j, hj, hchoice⟩ := weighted_choice_pure_birth (aliveCount st.tree) hk b hb
    (rng.unif st.uc) (hu st.uc).1 (hu st.uc).2
  have htr : tipRates st.tree = List.replicate (aliveCount st.tree) (b, 0) :=
    tipRates_replicate b 0 st.tree hA hR
  have hterm : bd_termination_check (pureBirthConfig b n retain rep) st = false := by
    simp only [bd_termination_check, pureBirthConfig]
    simp [Nat.not_le.mpr hlt]
  have hc1 : aliveCount (growTips (rng.expv st.ec) st.tree) = aliveCount st.tree :=
    aliveCount_growTips _ _
  have hA1 : allAliveP (growTips (rng.expv st.ec) st.tree) :=
    allAliveP_growTips _ _ hA
  have hR1 : ratesAreP b 0 (growTips (rng.expv st.ec) st.tree) :=
    ratesAreP_growTips _ _ _ _ hR
  obtain ⟨haux2, hA', hR', hc', hd', he', hrl', hit'⟩ :=
    birthAtAux_lt b (rng.gauss st.gc) (rng.gauss (st.gc + 1)) (rng.gauss (st.gc + 2))
      (rng.gauss (st.gc + 3)) (growTips (rng.expv st.ec) st.tree) j hA1 hR1
      (by rw [hc1]; exact hj)
  refine ⟨{ tree := birthAt 0 0 (rng.gauss st.gc) (rng.gauss (st.gc + 1))
              (rng.gauss (st.gc + 2)) (rng.gauss (st.gc + 3)) j
              (growTips (rng.expv st.ec) st.tree),
            total_time := st.total_time + rng.expv st.ec,
            targetted_time_slices := st.targetted_time_slices,
            ec := st.ec + 1, uc := st.uc + 1, gc := st.gc + 4 }, ?_, ?_, ?_, ?_, ?_, ?_, ?_, ?_, ?_, rfl⟩
  · -- the step equation
    unfold bdStep
    rw [hterm]
    have hgsa : (pureBirthConfig b n retain rep).gsa_ntax = none := rfl
    rw [hgsa]
    simp only [Bool.false_eq_true, if_false, Option.isSome_none, Bool.false_and]
    unfold bd_event_phase
    simp only []
    have hmax : (pureBirthConfig b n retain rep).max_time = none := rfl
    rw [hmax]
    simp only [if_true]
    rw [htr, hchoice]
    simp only [Nat.mul_mod_right, if_pos rfl]
    have hdiv : 2 * j / 2 = j := by omega
    rw [hdiv]
    have hbsd : (pureBirthConfig b n retain rep).birth_rate_sd = 0 := rfl
    have hdsd : (pureBirthConfig b n retain rep).death_rate_sd = 0 := rfl
    rw [hbsd, hdsd]
    simp only [if_true]
  · exact hA'
  · exact hR'
  · exact he' (edgesNonnegP_growTips _ (hexp st.ec) _ hE)
  · exact hd' _ _ (depthsAreP_growTips _ _ _ hA 0 hD)
  · exact hS
  · unfold birthAt
    rw [hc', hc1]
  · exact hit'
  · unfold birthAt
    rw [hrl', rootLen_growTips _ _ hA]

/-- Unfolding equation for `bdLoop` at positive fuel. -/
theorem bdLoop_succ (cfg : BDConfig) (rng : RngState) (fuel : ℕ) (st : BDState) :
    bdLoop cfg rng (fuel + 1) st =
      match bdStep cfg rng st with
      | .done st' => .exited st'
      | .breakFullTree st' => .exited st'
      | .breakGsaTotalExtinction st' => .exited st'
      | .stepped st' => bdLoop cfg rng fuel st'
      | .raisedTotalExtinction => .raised
      | .selectionFailure => .selectionFailure := rfl

/-- Helper for C4: the loop, started below the target with the invariants,
exits with exactly the target number of extant tips, all invariants
preserved, and (once the seed has branched) an unchanged root edge. -/
theorem pure_birth_loop (b : ℚ) (hb : 0 < b) (n : ℕ) (retain rep : Bool)
    (rng : RngState)
    (hexp : ∀ i, 0 ≤ rng.expv i) (hu : ∀ i, 0 ≤ rng.unif i ∧ rng.unif i < 1) :
    ∀ (m : ℕ) (st : BDState),
      allAliveP st.tree → ratesAreP b 0 st.tree → edgesNonnegP st.tree →
      depthsAreP st.total_time st.tree 0 → st.targetted_time_slices = [] →
      1 ≤ aliveCount st.tree → aliveCount st.tree + m = n →
      ∃ st', bdLoop (pureBirthConfig b n retain rep) rng (m + 1) st = .exited st'
        ∧ allAliveP st'.tree ∧ edgesNonnegP st'.tree
        ∧ depthsAreP st'.total_time st'.tree 0
        ∧ aliveCount st'.tree = n
        ∧ rootLen st'.tree = rootLen st.tree +
            (if isTip st.tree = true ∧ 1 ≤ m then rng.expv st.ec else 0) := by
  intro m
  induction m with
  | zero =>
    intro st hA hR hE hD hS hk hcount
    have hterm : bd_termination_check (pureBirthConfig b n retain rep) st = true := by
      simp only [bd_termination_check, pureBirthConfig]
      simp [show n ≤ aliveCount st.tree by omega]
    refine ⟨st, ?_, hA, hE, hD, by omega, by simp⟩
    rw [bdLoop_succ]
    unfold bdStep
    rw [hterm]
    simp
  | succ m ih =>
    intro st hA hR hE hD hS hk hcount
    obtain ⟨st1, hstep, hA1, hR1, hE1, hD1, hS1, hc1, hit1, hrl1, hec1⟩ :=
      pure_birth_step b hb n retain rep rng hexp hu st hA hR hE hD hS hk (by omega)
    obtain ⟨st', hloop, hA', hE', hD', hc', hrl'⟩ :=
      ih st1 hA1 hR1 hE1 hD1 hS1 (by omega) (by omega)
    refine ⟨st', ?_, hA', hE', hD', hc', ?_⟩
    · rw [bdLoop_succ, hstep]
      exact hloop
    · rw [hrl', hit1, hrl1]
      by_cases hit : isTip st.tree = true
      · simp [hit]
      · simp [hit]

/-- C4 (amended): every pure-birth run (birth rate `b > 0`, death rate 0,
no rate mutation, extant-tip target `n ≥ 2`, fresh tree) with
non-negative waiting times and uniform draws in `[0, 1)` terminates with
exactly `n` tips, no extinct tip regardless of the retention flag, all
edge lengths non-negative, every root-to-tip path summing to the total
elapsed time — and a root edge equal to the FIRST waiting time (the time
the seed spent as the sole lineage), not 0 as the claim states. -/
theorem pure_birth_run_properties (b : ℚ) (hb : 0 < b) (n : ℕ) (hn : 2 ≤ n)
    (retain rep : Bool) (rng : RngState)
    (hexp : ∀ i, 0 ≤ rng.expv i) (hu : ∀ i, 0 ≤ rng.unif i ∧ rng.unif i < 1) :
    ∃ st, bdLoop (pureBirthConfig b n retain rep) rng n
        (bd_initial_state (pureBirthConfig b n retain rep)) = .exited st
      ∧ birth_death_tree_run (pureBirthConfig b n retain rep) rng n = .ok st.tree
      ∧ leafCount st.tree = n
      ∧ aliveCount st.tree = n
      ∧ deadCount st.tree = 0
      ∧ allAliveP st.tree
      ∧ edgesNonnegP st.tree
      ∧ depthsAreP st.total_time st.tree 0
      ∧ rootLen st.tree = rng.expv 0 := by
  have hinit : bd_initial_state (pureBirthConfig b n retain rep) =
      { tree := .tip 0 b 0 true, total_time := 0, targetted_time_slices := [],
        ec := 0, uc := 0, gc := 0 } := rfl
  obtain ⟨st, hloop, hA, hE, hD, hcn, hrl⟩ :=
    pure_birth_loop b hb n retain rep rng hexp hu (n - 1)
      (bd_initial_state (pureBirthConfig b n retain rep))
      (by rw [hinit]; exact rfl)
      (by rw [hinit]; exact ⟨rfl, rfl⟩)
      (by rw [hinit]; exact le_refl 0)
      (by rw [hinit]; show (0 : ℚ) + 0 = 0; norm_num)
      (by rw [hinit])
      (by rw [hinit]; simp [aliveCount])
      (by rw [hinit]; simp [aliveCount]; omega)
  have hfuel : n - 1 + 1 = n := by omega
  rw [hfuel] at hloop
  have hrl2 : rootLen st.tree = rng.expv 0 := by
    rw [hrl, hinit]
    have hcond : isTip (LTree.tip (0 : ℚ) b 0 true) = true ∧ 1 ≤ n - 1 :=
      ⟨rfl, by omega⟩
    rw [if_pos hcond]
    show rootLen (LTree.tip (0 : ℚ) b 0 true) + rng.expv 0 = rng.expv 0
    simp [rootLen]
  have hinv : bd_invalid_configuration (pureBirthConfig b n retain rep) = false := by
    simp [bd_invalid_configuration, pureBirthConfig]
  have hpost : bd_postprocess (pureBirthConfig b n retain rep) st.tree = some st.tree := by
    unfold bd_postprocess
    cases retain <;> simp [pureBirthConfig, pruneDead_allAlive st.tree hA]
  refine ⟨st, hloop, ?_, ?_, hcn, ?_, hA, hE, hD, hrl2⟩
  · unfold birth_death_tree_run
    rw [hinv, hloop]
    simp only [Bool.false_eq_true, if_false]
    have hgsa : (pureBirthConfig b n retain rep).gsa_ntax = none := rfl
    rw [hgsa]
    simp only [Option.isSome_none, Bool.false_eq_true, if_false]
    rw [hpost]
  · rw [allAliveP_leafCount st.tree hA, hcn]
  · exact allAliveP_deadCount st.tree hA

/-- C4 (counterexample): the concrete pure-birth run with birth rate 1,
target 2 tips, and all waiting times 1 returns a tree whose root edge
length is 1, not 0: the seed's edge accumulates the first waiting time
(lines 276-280) before the first birth replaces it as a tip. -/
theorem pure_birth_root_edge_not_zero :
    birth_death_tree_run (pureBirthConfig 1 2 false true) bdPureRng 2
      = .ok (.node 1 (.tip 0 1 0 true) (.tip 0 1 0 true))
  ∧ rootLen (.node 1 (.tip 0 1 0 true) (.tip 0 1 0 true)) = 1
  ∧ (1 : ℚ) ≠ 0 := by
  refine ⟨?_, rfl, by norm_num⟩
  norm_num [birth_death_tree_run, pureBirthConfig, bdPureRng, bd_invalid_configuration,
    bdLoop, bdStep, bd_initial_state, bd_termination_check,
    bd_event_phase, bd_total_extinction_outcome, bd_reset_state, growTips, tipRates,
    eventWeights, weighted_choice_idx, weighted_choice_go, aliveCount, deadCount,
    birthAt, birthAtAux, killAt, killAtAux,
    rootLen, terminate_at_full_tree, bd_postprocess, pruneDead]

/-- Witness for C4's amended theorem: birth rate 1, target 2, waiting
times all 1, uniform draws all 0. -/
theorem pure_birth_run_properties_witness :
    ((0 : ℚ) < 1 ∧ 2 ≤ 2
  ∧ (∀ i, 0 ≤ bdPureRng.expv i)
  ∧ (∀ i, 0 ≤ bdPureRng.unif i ∧ bdPureRng.unif i < 1))
  ∧ ∃ st, bdLoop (pureBirthConfig 1 2 false true) bdPureRng 2
        (bd_initial_state (pureBirthConfig 1 2 false true)) = .exited st
      ∧ birth_death_tree_run (pureBirthConfig 1 2 false true) bdPureRng 2 = .ok st.tree
      ∧ leafCount st.tree = 2
      ∧ aliveCount st.tree = 2
      ∧ deadCount st.tree = 0
      ∧ allAliveP st.tree
      ∧ edgesNonnegP st.tree
      ∧ depthsAreP st.total_time st.tree 0
      ∧ rootLen st.tree = bdPureRng.expv 0 := by
  have h1 : (0 : ℚ) < 1 := by norm_num
  have h3 : ∀ i : ℕ, 0 ≤ bdPureRng.expv i := by
    intro i
    norm_num [bdPureRng]
  have h4 : ∀ i : ℕ, 0 ≤ bdPureRng.unif i ∧ bdPureRng.unif i < 1 := by
    intro i
    norm_num [bdPureRng]
  exact ⟨⟨h1, le_refl 2, h3, h4⟩,
    pure_birth_run_properties 1 h1 2 (le_refl 2) false true bdPureRng h3 h4⟩
